import Mathlib

/-!
Verification development for the DeepQLearner of
`scripts/intrinsic/q_compressor_network.py`: a shallow embedding of its
parameter graph, construction-time dispatch, TD-target computation,
clipped loss, batch accumulation, single-state padded evaluation, and
the mutable-state protocol (update counter, target snapshot,
max compression loss), together with theorems settling the spec claims.
-/

namespace PlayingAtari

/-! ### Parameter collections of build_large_network

`lasagne.layers.helper.get_all_params(layer)` collects the trainable
parameters of `layer` and of every layer below it in the graph.  The
graph built by `build_large_network` is

  l_in → l_conv1 → l_conv2 → l_conv3 → l_hidden1 → l_out          (value head)
                                └→ l_dropout → l_compress_1 → l_compress_2
                                   → l_representation → l_uncompress_1
                                   → l_uncompress_2                (autoencoder head)

Each list below is the `get_all_params` result for the corresponding
layer; input and dropout layers own no parameters. -/

def l_in_params : List String := []

def l_conv1_params : List String := l_in_params ++ ["conv1.W", "conv1.b"]

def l_conv2_params : List String := l_conv1_params ++ ["conv2.W", "conv2.b"]

def l_conv3_params : List String := l_conv2_params ++ ["conv3.W", "conv3.b"]

def l_hidden1_params : List String := l_conv3_params ++ ["hidden1.W", "hidden1.b"]

def l_out_params : List String := l_hidden1_params ++ ["out.W", "out.b"]

def l_dropout_params : List String := l_conv3_params

def l_compress_1_params : List String := l_dropout_params ++ ["compress1.W", "compress1.b"]

def l_compress_2_params : List String := l_compress_1_params ++ ["compress2.W", "compress2.b"]

def l_representation_params : List String :=
  l_compress_2_params ++ ["representation.W", "representation.b"]

def l_uncompress_1_params : List String :=
  l_representation_params ++ ["uncompress1.W", "uncompress1.b"]

def l_uncompress_2_params : List String :=
  l_uncompress_1_params ++ ["uncompress2.W", "uncompress2.b"]

/-- `params = lasagne.layers.helper.get_all_params(self.l_out)` (line 122):
the parameter list the value-loss update writes to. -/
def valueUpdateTargets : List String := l_out_params

/-- `compression_params = lasagne.layers.helper.get_all_params(self.reconstructed)`
(line 123), with `self.reconstructed = l_uncompress_2`: the parameter list the
compression-loss RMSProp update (line 146) writes to. -/
def compressionUpdateTargets : List String := l_uncompress_2_params

/-- The shared early feature-extraction (convolutional) weights. -/
def convParams : List String :=
  ["conv1.W", "conv1.b", "conv2.W", "conv2.b", "conv3.W", "conv3.b"]

/-! ### Construction-time dispatch (identifiers)

The `__init__` body raises `ValueError` on an unrecognized
action-selection identifier (lines 34–39), network type (lines 168–174,
reached from line 45), batch accumulator (lines 115–120) and update rule
(lines 131–140), in that order.  All four checks run during construction. -/

def initDispatch (actionSelection networkType batchAccumulator updateRule : String) :
    Except String Unit :=
  if actionSelection = "epsilon-greedy" ∨ actionSelection = "softmax" then
    if networkType = "large_network" then
      if batchAccumulator = "sum" ∨ batchAccumulator = "mean" then
        if updateRule = "deepmind_rmsprop" ∨ updateRule = "rmsprop" ∨ updateRule = "sgd" then
          Except.ok ()
        else Except.error ("Unrecognized update: " ++ updateRule)
      else Except.error ("Bad accumulator: " ++ batchAccumulator)
    else Except.error ("Unrecognized network: " ++ networkType)
  else Except.error ("Unrecognized action selection: " ++ actionSelection)

/-! ### Means, batch accumulation, compression loss, TD target -/

/-- `T.mean` over a flat list of rationals. -/
def mean (l : List ℚ) : ℚ := l.sum / l.length

/-- Batch accumulation of the per-example losses (lines 115–120):
`T.sum(loss)` for "sum", `T.mean(loss)` for "mean", `ValueError` otherwise. -/
def batchAccumulate (acc : String) (loss : List ℚ) : Except String ℚ :=
  if acc = "sum" then Except.ok loss.sum
  else if acc = "mean" then Except.ok (mean loss)
  else Except.error ("Bad accumulator: " ++ acc)

/-- `compression_loss = T.mean(0.5 * (original_vals - reconstructed_vals) ** 2)`
(line 91): the mean of the halved squared differences over every element of
the batch tensor (rows are examples, inner lists the per-example features). -/
def compressionLossBatch (orig recon : List (List ℚ)) : ℚ :=
  mean ((orig.flatten.zip recon.flatten).map (fun p => (1 / 2) * (p.1 - p.2) ^ 2))

/-- `T.max(row)` over one row of next-state action values. -/
def listMax : List ℚ → ℚ
  | [] => 0
  | x :: xs => xs.foldl max x

/-- The TD target vector (lines 93–95):
`target = rewards + compression_loss +
          (T.ones_like(terminals) - terminals) * discount * T.max(next_q_vals, axis=1)`,
with `rewards` a column of rationals and `terminals` a column of int32 flags. -/
def tdTarget (discount cLoss : ℚ) (rewards : List ℚ) (terminals : List ℤ)
    (nextQ : List (List ℚ)) : List ℚ :=
  List.zipWith (fun rt mq => rt.1 + cLoss + ((1 - rt.2 : ℤ) : ℚ) * (discount * mq))
    (rewards.zip terminals) (nextQ.map listMax)

/-- Where the next-state action values come from (lines 81–87): the frozen
copy `next_l_out` when `freeze_interval > 0`, otherwise the live network with
`theano.gradient.disconnected_grad` applied. -/
inductive NextQSource where
  | snapshot
  | liveDisconnected
  deriving DecidableEq

def nextQSource (freezeInterval : ℕ) : NextQSource :=
  if 0 < freezeInterval then NextQSource.snapshot else NextQSource.liveDisconnected

/-! ### Clipped (Huber-style) loss (lines 99–113)

With `clip_delta > 0`:
  `quadratic_part = T.minimum(abs(diff), clip_delta)`
  `linear_part    = abs(diff) - quadratic_part`
  `loss           = 0.5 * quadratic_part ** 2 + clip_delta * linear_part`,
else `loss = 0.5 * diff ** 2`. -/

def clippedLoss (δ d : ℚ) : ℚ :=
  if 0 < δ then
    (1 / 2) * (min |d| δ) ^ 2 + δ * (|d| - min |d| δ)
  else (1 / 2) * d ^ 2

/-- The difference quotient of `clippedLoss δ` based at the clip point `c`:
the slope of the chord from `c` to `d`.  Its convergence (with explicit
modulus) as `d → c` states continuity of the loss's slope at `c`. -/
def lossSlope (δ c d : ℚ) : ℚ :=
  (clippedLoss δ d - clippedLoss δ c) / (d - c)

/-! ### Single-state padded evaluation (lines 203–220)

`q_vals_and_compression_loss` and `compression_loss` place the single
state in row 0 of a zero-initialized batch of `batch_size` rows and run
the batch compression loss on it.  The network is abstracted by the
per-example feature maps `fo` (the `original` layer output) and `fr`
(the `reconstructed` layer output); convolutional and dense layers act
row by row, so the batch outputs are the rowwise images. -/

def paddedStates {σ : Type} (batchSize : ℕ) (zeroState s : σ) : List σ :=
  s :: List.replicate (batchSize - 1) zeroState

/-- Per-example compression loss: the mean of the halved squared feature
differences for a single example. -/
def perExampleLoss {σ : Type} (fo fr : σ → List ℚ) (x : σ) : ℚ :=
  mean (((fo x).zip (fr x)).map (fun p => (1 / 2) * (p.1 - p.2) ^ 2))

/-- The scalar the single-state paths compute: the batch compression loss
of the padded batch (the given state in row 0, all-zero states below). -/
def compressionLossMethod {σ : Type} (batchSize : ℕ) (fo fr : σ → List ℚ)
    (zeroState s : σ) : ℚ :=
  compressionLossBatch ((paddedStates batchSize zeroState s).map fo)
    ((paddedStates batchSize zeroState s).map fr)

/-! ### Learner mutable state (lines 32, 43, 47–51, 176–243)

The mutable fields of a `DeepQLearner` that the claims are about, with
the network parameters abstracted to a type `P` (the gradient step of a
call to `_train` becomes an arbitrary function `P → P`).  Computed
compression losses are supplied as oracle inputs of type `ℚ`. -/

structure DQLState (P : Type) where
  liveParams : P
  snapParams : Option P
  updateCounter : ℕ
  maxCompressionLoss : ℚ
  freezeInterval : ℕ

/-- Construction (lines 32, 43, 47–51): counter and max compression loss
start at 0; when `freeze_interval > 0` a second network is built and
`reset_q_hat` copies the live parameters into it. -/
def initLearner (P : Type) (freezeInterval : ℕ) (p0 : P) : DQLState P :=
  { liveParams := p0
    snapParams := if 0 < freezeInterval then some p0 else none
    updateCounter := 0
    maxCompressionLoss := 0
    freezeInterval := freezeInterval }

/-- `reset_q_hat` (lines 241–243): copy the live parameter values into the
frozen network (`get_all_param_values` returns copies, so the snapshot is
an independent value, not an alias). -/
def resetQHat {P : Type} (m : DQLState P) : DQLState P :=
  { m with snapParams := some m.liveParams }

/-- `train` (lines 176–201): refresh the snapshot when
`freeze_interval > 0` and `update_counter % freeze_interval == 0`
(checked before this step's gradient computation), run `_train` (one
gradient step `u` on the live parameters; its returned
`compression_loss` is bound to a local and discarded), then increment
the counter.  `max_compression_loss` is not touched. -/
def train {P : Type} (u : P → P) (compressionLossValue : ℚ) (m : DQLState P) : DQLState P :=
  let m1 := if 0 < m.freezeInterval ∧ m.updateCounter % m.freezeInterval = 0
    then resetQHat m else m
  let _ := compressionLossValue
  { m1 with liveParams := u m1.liveParams, updateCounter := m1.updateCounter + 1 }

/-- The exploration-bias computation shared by both action-selection
policies (lines 222–226 and 234–236): the single-state evaluation first
folds the freshly computed compression loss `ℓ` into
`max_compression_loss` (lines 210, 219), then the caller divides `ℓ` by
the updated maximum.  IEEE division of 0 by 0 yields NaN (numpy emits a
warning, no exception); NaN is modelled as `none`. -/
def biasAfterEval (prevMax ℓ : ℚ) : Option ℚ :=
  let mx := max prevMax ℓ
  if mx = 0 then none else some (ℓ / mx)

inductive PyError where
  | attributeErrorNoQVals
  deriving DecidableEq

/-- `choose_action_epsilon_greedy` (lines 234–239): compute the bias,
draw `r`; if `r < epsilon + bias` return the random action index
(`rng.randint`); otherwise the code executes `self.q_vals(state)`, but
the class defines no attribute `q_vals` (only the private theano
function `_q_vals`), so Python raises `AttributeError` before any argmax
is taken.  A comparison with NaN is false, so a NaN bias always reaches
the failing branch. -/
def chooseActionEpsilonGreedy {P : Type} (m : DQLState P) (ℓ ε r : ℚ)
    (randAction : ℕ) : Except PyError ℕ × DQLState P :=
  let m1 := { m with maxCompressionLoss := max m.maxCompressionLoss ℓ }
  let explore : Bool :=
    match biasAfterEval m.maxCompressionLoss ℓ with
    | none => false
    | some b => decide (r < ε + b)
  if explore then (Except.ok randAction, m1)
  else (Except.error PyError.attributeErrorNoQVals, m1)

/-- The temperature of `choose_action_softmax` (lines 222–226):
`tau = epsilon + compression_loss / max_compression_loss`, with the max
already updated by `q_vals_and_compression_loss`; `none` is NaN. -/
def softmaxTemperature {P : Type} (m : DQLState P) (ℓ ε : ℚ) :
    Option ℚ × DQLState P :=
  let m1 := { m with maxCompressionLoss := max m.maxCompressionLoss ℓ }
  ((biasAfterEval m.maxCompressionLoss ℓ).map (fun b => ε + b), m1)

/-- One externally visible call that touches `max_compression_loss` or the
training state: a `train` call (with its gradient step and computed batch
compression loss), or a single-state compression-loss evaluation as done
by both `chooseAction` paths (lines 210, 219). -/
inductive Op (P : Type) where
  | trainCall (u : P → P) (ℓ : ℚ)
  | evalCompressionLoss (ℓ : ℚ)

def stepOp {P : Type} (m : DQLState P) : Op P → DQLState P
  | Op.trainCall u ℓ => train u ℓ m
  | Op.evalCompressionLoss ℓ =>
      { m with maxCompressionLoss := max m.maxCompressionLoss ℓ }

/-! ## Helper lemmas -/

theorem train_maxCompressionLoss {P : Type} (u : P → P) (ℓ : ℚ) (m : DQLState P) :
    (train u ℓ m).maxCompressionLoss = m.maxCompressionLoss := by
  unfold train resetQHat
  split <;> rfl

theorem stepOp_maxCompressionLoss_le {P : Type} (m : DQLState P) (op : Op P) :
    m.maxCompressionLoss ≤ (stepOp m op).maxCompressionLoss := by
  cases op with
  | trainCall u ℓ => rw [stepOp, train_maxCompressionLoss]
  | evalCompressionLoss ℓ => exact le_max_left _ _

theorem foldl_stepOp_maxCompressionLoss_le {P : Type} (ops : List (Op P)) :
    ∀ m : DQLState P, m.maxCompressionLoss ≤ (ops.foldl stepOp m).maxCompressionLoss := by
  induction ops with
  | nil => intro m; exact le_rfl
  | cons op ops ih =>
      intro m
      exact le_trans (stepOp_maxCompressionLoss_le m op) (ih (stepOp m op))

theorem train_no_refresh {P : Type} (u : P → P) (ℓ : ℚ) (m : DQLState P)
    (h : ¬ (0 < m.freezeInterval ∧ m.updateCounter % m.freezeInterval = 0)) :
    (train u ℓ m).snapParams = m.snapParams ∧
    (train u ℓ m).updateCounter = m.updateCounter + 1 ∧
    (train u ℓ m).freezeInterval = m.freezeInterval := by
  unfold train
  rw [if_neg h]
  exact ⟨rfl, rfl, rfl⟩

theorem train_refresh {P : Type} (u : P → P) (ℓ : ℚ) (m : DQLState P)
    (h : 0 < m.freezeInterval ∧ m.updateCounter % m.freezeInterval = 0) :
    (train u ℓ m).snapParams = some m.liveParams ∧
    (train u ℓ m).updateCounter = m.updateCounter + 1 ∧
    (train u ℓ m).freezeInterval = m.freezeInterval := by
  unfold train
  rw [if_pos h]
  exact ⟨rfl, rfl, rfl⟩

/-- Once the counter is strictly between refresh points, further `train`
calls that keep the counter below `freeze_interval` leave the snapshot
untouched. -/
theorem snapParams_stable {P : Type} (k : ℕ) (calls : List ((P → P) × ℚ)) :
    ∀ m : DQLState P, m.freezeInterval = k → 0 < m.updateCounter →
      m.updateCounter + calls.length ≤ k →
      (calls.foldl (fun m c => train c.1 c.2 m) m).snapParams = m.snapParams := by
  induction calls with
  | nil => intro m _ _ _; rfl
  | cons c calls ih =>
      intro m hf hc hb
      have hlt : m.updateCounter < k := by
        have := calls.length
        simp only [List.length_cons] at hb
        omega
      have hmod : ¬ (0 < m.freezeInterval ∧ m.updateCounter % m.freezeInterval = 0) := by
        rintro ⟨_, hz⟩
        rw [hf] at hz
        rw [Nat.mod_eq_of_lt hlt] at hz
        omega
      obtain ⟨hs, hcnt, hfr⟩ := train_no_refresh c.1 c.2 m hmod
      simp only [List.foldl_cons]
      rw [ih (train c.1 c.2 m) (by rw [hfr, hf]) (by rw [hcnt]; omega)
        (by rw [hcnt]; simp only [List.length_cons] at hb; omega)]
      exact hs

/-! ## Claims -/

/-- Claim C1 counterexample: the parameter list that the compression-loss
RMSProp update writes to (`get_all_params(self.reconstructed)`, lines 123
and 146–148) contains the shared convolutional weight `conv1.W`, which is
also a value-parameter (a member of `get_all_params(self.l_out)`), so the
compression-loss update does not leave the shared feature extractor
unchanged. -/
theorem C1_counterexample :
    "conv1.W" ∈ convParams ∧ "conv1.W" ∈ valueUpdateTargets ∧
    "conv1.W" ∈ compressionUpdateTargets := by decide

/-- Claim C1 (amended): the compression-loss update's parameter list
contains every shared convolutional parameter (each of which is also a
value-parameter), and omits exactly the value head's dense-layer
parameters; so the compression-loss update does update the shared
feature extractor, and only the value head is untouched by it. -/
theorem C1_amended :
    (∀ p ∈ convParams, p ∈ compressionUpdateTargets ∧ p ∈ valueUpdateTargets) ∧
    "hidden1.W" ∉ compressionUpdateTargets ∧ "hidden1.b" ∉ compressionUpdateTargets ∧
    "out.W" ∉ compressionUpdateTargets ∧ "out.b" ∉ compressionUpdateTargets := by decide

/-- Claim C9 counterexample: the update-rule identifier spelled
`deepmind-rmsprop` (as the claim states it) is rejected at construction
with a `ValueError`; the identifier the code accepts is spelled
`deepmind_rmsprop` (line 131). -/
theorem C9_counterexample :
    initDispatch "epsilon-greedy" "large_network" "sum" "deepmind-rmsprop"
      = Except.error "Unrecognized update: deepmind-rmsprop" ∧
    initDispatch "epsilon-greedy" "large_network" "sum" "deepmind_rmsprop"
      = Except.ok () := by
  exact ⟨rfl, rfl⟩

/-- Claim C9 (amended): construction succeeds exactly for the update-rule
identifiers deepmind_rmsprop, rmsprop, sgd (underscore spelling), the
batch-accumulator identifiers sum, mean, the action-selection identifiers
epsilon-greedy, softmax (and the network type large_network), and raises a
`ValueError` during construction for any identifier outside these sets. -/
theorem C9_amended (a n acc u : String) :
    initDispatch a n acc u = Except.ok () ↔
      ((a = "epsilon-greedy" ∨ a = "softmax") ∧ n = "large_network" ∧
       (acc = "sum" ∨ acc = "mean") ∧
       (u = "deepmind_rmsprop" ∨ u = "rmsprop" ∨ u = "sgd")) := by
  unfold initDispatch
  split_ifs with h1 h2 h3 h4 <;> simp_all

/-- Claim C5 counterexample: a `train` call does not fold its computed
compression loss into `max_compression_loss` — the local binding on line
199 is discarded.  After one `train` call whose batch compression loss is
5, the maximum is still 0, not `max 0 5 = 5`. -/
theorem C5_counterexample :
    (train (fun p => p + 1) 5 (initLearner ℕ 1 0)).maxCompressionLoss = 0 ∧
    (train (fun p => p + 1) 5 (initLearner ℕ 1 0)).maxCompressionLoss
      ≠ max (initLearner ℕ 1 0).maxCompressionLoss 5 := by decide

/-- Claim C5 (amended): `max_compression_loss` is initialized to 0 at
construction and is monotonically non-decreasing across every sequence of
`train` and `chooseAction` calls; each single-state compression-loss
evaluation (the `chooseAction` paths) updates it by a monotonic max with
the newly computed loss, while a `train` call leaves it unchanged (its
computed compression loss is discarded). -/
theorem C5_amended :
    (∀ (P : Type) (k : ℕ) (p0 : P), (initLearner P k p0).maxCompressionLoss = 0) ∧
    (∀ (P : Type) (ops : List (Op P)) (m : DQLState P),
      m.maxCompressionLoss ≤ (ops.foldl stepOp m).maxCompressionLoss) ∧
    (∀ (P : Type) (m : DQLState P) (ℓ : ℚ),
      (stepOp m (Op.evalCompressionLoss ℓ)).maxCompressionLoss
        = max m.maxCompressionLoss ℓ) ∧
    (∀ (P : Type) (m : DQLState P) (u : P → P) (ℓ : ℚ),
      (stepOp m (Op.trainCall u ℓ)).maxCompressionLoss = m.maxCompressionLoss) := by
  refine ⟨fun P k p0 => rfl, fun P ops m => foldl_stepOp_maxCompressionLoss_le ops m,
    fun P m ℓ => rfl, fun P m u ℓ => ?_⟩
  exact train_maxCompressionLoss u ℓ m

/-- Claim C4 counterexample: with `freeze_interval = 2` and a live update
that increments the (abstracted) parameters, after exactly 2 `train` calls
the snapshot holds the construction-time parameters (`some 0`): the
refresh ran at the first call (counter 0), not at the second (counter 1),
so the snapshot equals neither the live parameters at the start of the
2nd call (1) nor at its end (2). -/
theorem C4_counterexample :
    (train (fun p => p + 1) 0 (train (fun p => p + 1) 0 (initLearner ℕ 2 0))).snapParams
        = some 0 ∧
    (train (fun p => p + 1) 0 (train (fun p => p + 1) 0 (initLearner ℕ 2 0))).snapParams
        ≠ some ((train (fun p => p + 1) 0 (initLearner ℕ 2 0)).liveParams) ∧
    (train (fun p => p + 1) 0 (train (fun p => p + 1) 0 (initLearner ℕ 2 0))).snapParams
        ≠ some ((train (fun p => p + 1) 0
            (train (fun p => p + 1) 0 (initLearner ℕ 2 0))).liveParams) := by decide

/-- Claim C4 (amended): with `freeze_interval = k > 0`, the refresh fires
at the calls whose pre-increment counter is divisible by k (calls 1,
k+1, ...), so after exactly k `train` calls the snapshot's parameters
equal the live network's parameters at the moment of the FIRST call —
i.e. the construction-time parameters — whatever gradient updates the k
calls applied; the snapshot is a copy, so the live updates applied after
the refresh never change it. -/
theorem C4_amended {P : Type} (k : ℕ) (hk : 0 < k)
    (calls : List ((P → P) × ℚ)) (hlen : calls.length = k) (p0 : P) :
    (calls.foldl (fun m c => train c.1 c.2 m)
        (initLearner P k p0)).snapParams = some p0 := by
  cases calls with
  | nil => simp at hlen; omega
  | cons c rest =>
      have hcond : 0 < (initLearner P k p0).freezeInterval ∧
          (initLearner P k p0).updateCounter % (initLearner P k p0).freezeInterval = 0 := by
        exact ⟨hk, by simp [initLearner]⟩
      obtain ⟨hs, hcnt, hfr⟩ := train_refresh c.1 c.2 (initLearner P k p0) hcond
      simp only [List.foldl_cons]
      rw [snapParams_stable k rest (train c.1 c.2 (initLearner P k p0))
        (by rw [hfr]; rfl) (by rw [hcnt]; simp [initLearner])
        (by rw [hcnt]; simp only [List.length_cons] at hlen; simp [initLearner]; omega)]
      rw [hs]
      rfl

/-- Claim C4 (amended) witness at k = 2 with incrementing updates. -/
theorem C4_amended_witness :
    0 < 2 ∧
    ([(fun p => p + 1, (0 : ℚ)), (fun p => p + 1, 0)] : List ((ℕ → ℕ) × ℚ)).length = 2 ∧
    (([(fun p => p + 1, (0 : ℚ)), (fun p => p + 1, 0)] : List ((ℕ → ℕ) × ℚ)).foldl
        (fun m c => train c.1 c.2 m) (initLearner ℕ 2 0)).snapParams = some 0 :=
  ⟨by decide, by decide, C4_amended 2 (by decide) _ (by decide) 0⟩

/-- Claim C2: with a 4 already recorded as the maximum compression loss, a
current compression loss of 1 (bias 1/4), epsilon 1/2 and a uniform draw
of 9/10 ≥ 3/4, the epsilon-greedy selector takes the greedy branch; there
it executes `self.q_vals(state)` (line 238), but the class defines no
`q_vals` attribute, so the call raises `AttributeError` instead of
returning the argmax the claim describes. -/
theorem C2_code_bug :
    (chooseActionEpsilonGreedy
        { initLearner ℕ 0 0 with maxCompressionLoss := 4 } 1 (1/2) (9/10) 0).1
      = Except.error PyError.attributeErrorNoQVals := by
  have hmax : max (4 : ℚ) 1 = 4 := max_eq_left (by norm_num)
  have hne : (4 : ℚ) ≠ 0 := by norm_num
  simp [chooseActionEpsilonGreedy, biasAfterEval, hmax, hne]
  rw [if_neg (by norm_num)]

/-- Claim C3 counterexample: when the maximum compression loss is still 0
after folding in the current loss (i.e. the current loss is also 0), the
bias computation performs the division 0 / 0 with no guard — in numpy
this is NaN, not 0 — and the softmax temperature inherits the NaN. -/
theorem C3_counterexample :
    biasAfterEval 0 0 = none ∧ biasAfterEval 0 0 ≠ some 0 ∧
    (softmaxTemperature (initLearner ℕ 0 0) 0 1).1 = none := by decide

/-- Claim C3 (amended): at the time the bias is computed the maximum has
already been folded with the current state's compression loss, so (for
the non-negative losses the network produces) it is 0 exactly when the
current loss is 0; in that single case the bias is the unguarded
indeterminate 0/0 (NaN in IEEE arithmetic, no exception raised), and in
every other case the bias is the well-defined quotient of the current
loss by the updated maximum. -/
theorem C3_amended (prevMax ℓ : ℚ) (h0 : 0 ≤ prevMax) (h1 : 0 ≤ ℓ) :
    (biasAfterEval prevMax ℓ = none ↔ prevMax = 0 ∧ ℓ = 0) ∧
    (max prevMax ℓ ≠ 0 → biasAfterEval prevMax ℓ = some (ℓ / max prevMax ℓ)) := by
  constructor
  · unfold biasAfterEval
    constructor
    · intro h
      by_cases hmx : max prevMax ℓ = 0
      · constructor
        · exact le_antisymm (hmx ▸ le_max_left prevMax ℓ) h0
        · exact le_antisymm (hmx ▸ le_max_right prevMax ℓ) h1
      · simp [hmx] at h
    · rintro ⟨hp, hl⟩
      simp [hp, hl]
  · intro hmx
    unfold biasAfterEval
    simp [hmx]

/-- Claim C3 (amended) witness: previous maximum 4, current loss 1. -/
theorem C3_amended_witness :
    (0 : ℚ) ≤ 4 ∧ (0 : ℚ) ≤ 1 ∧
    ((biasAfterEval 4 1 = none ↔ (4 : ℚ) = 0 ∧ (1 : ℚ) = 0) ∧
     (max (4 : ℚ) 1 ≠ 0 → biasAfterEval 4 1 = some (1 / max (4 : ℚ) 1))) :=
  ⟨by decide, by decide, C3_amended 4 1 (by decide) (by decide)⟩

theorem tdTarget_getD (d c : ℚ) :
    ∀ (i : ℕ) (rws : List ℚ) (tms : List ℤ) (nq : List (List ℚ)),
      i < rws.length → i < tms.length → i < nq.length →
      (tdTarget d c rws tms nq).getD i 0
        = rws.getD i 0 + c
          + ((1 - tms.getD i 0 : ℤ) : ℚ) * (d * listMax (nq.getD i [])) := by
  intro i
  induction i with
  | zero =>
      intro rws tms nq h1 h2 h3
      match rws, tms, nq with
      | r :: rws, t :: tms, q :: nq => simp [tdTarget]
  | succ i ih =>
      intro rws tms nq h1 h2 h3
      match rws, tms, nq with
      | r :: rws, t :: tms, q :: nq =>
          simp only [tdTarget, List.zip_cons_cons, List.map_cons, List.zipWith_cons_cons,
            List.getD_cons_succ]
          exact ih rws tms nq (by simpa using h1) (by simpa using h2) (by simpa using h3)

theorem tdTarget_eq_map_add (d c : ℚ) :
    ∀ (rws : List ℚ) (tms : List ℤ) (nq : List (List ℚ)),
      tdTarget d c rws tms nq = (tdTarget d 0 rws tms nq).map (fun t => t + c) := by
  intro rws
  induction rws with
  | nil => intro tms nq; rfl
  | cons r rws ih =>
      intro tms nq
      match tms, nq with
      | [], _ => rfl
      | t :: tms, [] => rfl
      | t :: tms, q :: nq =>
          simp only [tdTarget, List.zip_cons_cons, List.map_cons, List.zipWith_cons_cons,
            List.map] at ih ⊢
          refine List.cons_eq_cons.mpr ⟨by ring, ?_⟩
          simpa [List.zip] using ih tms nq

/-- Claim C6: the TD target of example i equals
`reward[i] + compression_loss + (1 − terminal[i]) × discount × max_a next_q[i, a]`;
the compression loss is the single batch-mean scalar, added uniformly to
every example's target; and the next-state action values come from the
target snapshot when `freeze_interval > 0`, otherwise from the live
network with `disconnected_grad` applied. -/
theorem C6_theorem (freezeInterval : ℕ) (discount : ℚ) (orig recon : List (List ℚ))
    (rewards : List ℚ) (terminals : List ℤ) (nextQ : List (List ℚ)) (i : ℕ)
    (h1 : i < rewards.length) (h2 : i < terminals.length) (h3 : i < nextQ.length) :
    (tdTarget discount (compressionLossBatch orig recon) rewards terminals nextQ).getD i 0
      = rewards.getD i 0 + compressionLossBatch orig recon
        + ((1 - terminals.getD i 0 : ℤ) : ℚ)
          * (discount * listMax (nextQ.getD i [])) ∧
    tdTarget discount (compressionLossBatch orig recon) rewards terminals nextQ
      = (tdTarget discount 0 rewards terminals nextQ).map
          (fun t => t + compressionLossBatch orig recon) ∧
    (nextQSource freezeInterval = NextQSource.snapshot ↔ 0 < freezeInterval) := by
  refine ⟨tdTarget_getD discount (compressionLossBatch orig recon) i rewards terminals
    nextQ h1 h2 h3, tdTarget_eq_map_add discount (compressionLossBatch orig recon)
    rewards terminals nextQ, ?_⟩
  unfold nextQSource
  split_ifs with h
  · simp [h]
  · simp [h]

/-- Claim C6 witness: a one-example batch with reward 2, non-terminal flag,
discount 1/2, next-state values [1, 5] and feature pair 1 vs 0. -/
theorem C6_witness :
    0 < [(2 : ℚ)].length ∧ 0 < [(0 : ℤ)].length ∧ 0 < [[(1 : ℚ), 5]].length ∧
    ((tdTarget (1/2) (compressionLossBatch [[1]] [[0]]) [2] [0] [[1, 5]]).getD 0 0
        = [(2 : ℚ)].getD 0 0 + compressionLossBatch [[1]] [[0]]
          + ((1 - [(0 : ℤ)].getD 0 0 : ℤ) : ℚ)
            * ((1/2) * listMax ([[(1 : ℚ), 5]].getD 0 [])) ∧
     tdTarget (1/2) (compressionLossBatch [[1]] [[0]]) [2] [0] [[1, 5]]
        = (tdTarget (1/2) 0 [2] [0] [[1, 5]]).map
            (fun t => t + compressionLossBatch [[1]] [[0]]) ∧
     (nextQSource 1 = NextQSource.snapshot ↔ 0 < 1)) :=
  ⟨by decide, by decide, by decide,
    C6_theorem 1 (1/2) [[1]] [[0]] [2] [0] [[1, 5]] 0 (by decide) (by decide) (by decide)⟩

/-- Claim C8: on the identical list of per-example losses, the `sum`
batch-accumulator yields exactly the batch size times the `mean`
accumulator's result. -/
theorem C8_theorem (losses : List ℚ) :
    batchAccumulate "sum" losses
      = (batchAccumulate "mean" losses).map (fun m => (losses.length : ℚ) * m) := by
  have hs : batchAccumulate "sum" losses = Except.ok losses.sum := rfl
  have hm : batchAccumulate "mean" losses = Except.ok (mean losses) := rfl
  rw [hs, hm]
  show Except.ok losses.sum = Except.ok ((losses.length : ℚ) * mean losses)
  unfold mean
  rcases eq_or_ne losses.length 0 with h | h
  · rw [List.length_eq_zero] at h
    subst h
    norm_num
  · have hq : (losses.length : ℚ) ≠ 0 := Nat.cast_ne_zero.mpr h
    rw [mul_div_cancel₀ _ hq]

theorem clippedLoss_of_abs_le (δ d : ℚ) (hδ : 0 < δ) (h : |d| ≤ δ) :
    clippedLoss δ d = (1/2) * d^2 := by
  unfold clippedLoss
  rw [if_pos hδ, min_eq_left h, sq_abs]
  ring

theorem clippedLoss_of_lt_abs (δ d : ℚ) (hδ : 0 < δ) (h : δ < |d|) :
    clippedLoss δ d = δ * |d| - (1/2) * δ^2 := by
  unfold clippedLoss
  rw [if_pos hδ, min_eq_right (le_of_lt h)]
  ring

/-- Claim C7: with a configured clip threshold δ > 0 the per-example loss
is `0.5 diff²` for `|diff| ≤ δ` and `δ |diff| − 0.5 δ²` for `|diff| > δ`
(quadratic inside, linear continuation outside); with δ = 0 it is the
plain squared error; and the loss's slope is continuous at the clip
points `diff = δ` and `diff = −δ`: the chord slope based at the clip
point differs from the one-sided derivative value (δ, resp. −δ) by at
most half the distance to the clip point, so it converges to it from
both sides. -/
theorem C7_theorem (δ : ℚ) (hδ : 0 < δ) :
    (∀ d : ℚ, |d| ≤ δ → clippedLoss δ d = (1/2) * d^2) ∧
    (∀ d : ℚ, δ < |d| → clippedLoss δ d = δ * |d| - (1/2) * δ^2) ∧
    (∀ d : ℚ, clippedLoss 0 d = (1/2) * d^2) ∧
    (∀ d : ℚ, 0 < d → d ≠ δ → |lossSlope δ δ d - δ| ≤ |d - δ| / 2) ∧
    (∀ d : ℚ, d < 0 → d ≠ -δ → |lossSlope δ (-δ) d - (-δ)| ≤ |d - (-δ)| / 2) := by
  have habs2 : |(2 : ℚ)| = 2 := by norm_num
  have hLδ : clippedLoss δ δ = 1/2 * δ^2 :=
    clippedLoss_of_abs_le δ δ hδ (le_of_eq (abs_of_pos hδ))
  have hLnδ : clippedLoss δ (-δ) = 1/2 * δ^2 := by
    rw [clippedLoss_of_abs_le δ (-δ) hδ (by rw [abs_neg, abs_of_pos hδ])]
    ring
  refine ⟨fun d h => clippedLoss_of_abs_le δ d hδ h,
    fun d h => clippedLoss_of_lt_abs δ d hδ h,
    fun d => by unfold clippedLoss; rw [if_neg (lt_irrefl 0)],
    fun d hd hne => ?_, fun d hd hne => ?_⟩
  · rcases le_or_lt d δ with hle | hlt
    · have hLd : clippedLoss δ d = 1/2 * d^2 :=
        clippedLoss_of_abs_le δ d hδ (by rw [abs_of_pos hd]; exact hle)
      have hsub : d - δ ≠ 0 := sub_ne_zero.mpr hne
      unfold lossSlope
      rw [hLd, hLδ]
      have hq : (1/2 * d^2 - 1/2 * δ^2) / (d - δ) - δ = (d - δ) / 2 := by
        field_simp
        try ring
      rw [hq, abs_div, habs2]
    · have hLd : clippedLoss δ d = δ * d - 1/2 * δ^2 := by
        rw [clippedLoss_of_lt_abs δ d hδ (by rw [abs_of_pos hd]; exact hlt),
          abs_of_pos hd]
      have hsub : d - δ ≠ 0 := sub_ne_zero.mpr hne
      unfold lossSlope
      rw [hLd, hLδ]
      have hq : (δ * d - 1/2 * δ^2 - 1/2 * δ^2) / (d - δ) - δ = 0 := by
        field_simp
        ring
      rw [hq, abs_zero]
      exact div_nonneg (abs_nonneg _) (by norm_num)
  · have hsub : d - (-δ) ≠ 0 := sub_ne_zero.mpr hne
    have hadd : d + δ ≠ 0 := by rw [← sub_neg_eq_add]; exact hsub
    rcases le_or_lt (-δ) d with hle | hlt
    · have hLd : clippedLoss δ d = 1/2 * d^2 :=
        clippedLoss_of_abs_le δ d hδ (by rw [abs_of_neg hd]; exact neg_le.mp hle)
      unfold lossSlope
      rw [hLd, hLnδ]
      have hq : (1/2 * d^2 - 1/2 * δ^2) / (d - (-δ)) - (-δ) = (d - (-δ)) / 2 := by
        simp only [sub_neg_eq_add]
        field_simp
        ring
      rw [hq, abs_div, habs2]
    · have hLd : clippedLoss δ d = δ * (-d) - 1/2 * δ^2 := by
        rw [clippedLoss_of_lt_abs δ d hδ (by rw [abs_of_neg hd]; exact lt_neg.mp hlt),
          abs_of_neg hd]
      unfold lossSlope
      rw [hLd, hLnδ]
      have hq : (δ * (-d) - 1/2 * δ^2 - 1/2 * δ^2) / (d - (-δ)) - (-δ) = 0 := by
        simp only [sub_neg_eq_add]
        rw [div_add' _ _ _ hadd]
        rw [div_eq_zero_iff]
        left
        ring
      rw [hq, abs_zero]
      exact div_nonneg (abs_nonneg _) (by norm_num)

/-- Claim C7 witness at δ = 1. -/
theorem C7_witness :
    (0 : ℚ) < 1 ∧
    ((∀ d : ℚ, |d| ≤ 1 → clippedLoss 1 d = (1/2) * d^2) ∧
     (∀ d : ℚ, 1 < |d| → clippedLoss 1 d = 1 * |d| - (1/2) * 1^2) ∧
     (∀ d : ℚ, clippedLoss 0 d = (1/2) * d^2) ∧
     (∀ d : ℚ, 0 < d → d ≠ 1 → |lossSlope 1 1 d - 1| ≤ |d - 1| / 2) ∧
     (∀ d : ℚ, d < 0 → d ≠ -1 → |lossSlope 1 (-1) d - (-1)| ≤ |d - (-1)| / 2)) :=
  ⟨by decide, C7_theorem 1 (by decide)⟩

/-- Summing the per-element losses over a batch whose rows all have
feature length n decomposes into the per-row sums, and the element count
is rows × n. -/
theorem flatten_zip_loss {σ : Type} (fo fr : σ → List ℚ) (n : ℕ)
    (hfo : ∀ x, (fo x).length = n) (hfr : ∀ x, (fr x).length = n) :
    ∀ rows : List σ,
      (((rows.map fo).flatten.zip (rows.map fr).flatten).map
          (fun p => (1/2) * (p.1 - p.2)^2)).sum
        = (rows.map (fun x =>
            (((fo x).zip (fr x)).map (fun p => (1/2) * (p.1 - p.2)^2)).sum)).sum ∧
      ((rows.map fo).flatten.zip (rows.map fr).flatten).length = rows.length * n := by
  intro rows
  induction rows with
  | nil => exact ⟨rfl, by simp⟩
  | cons x rows ih =>
      simp only [List.map_cons, List.flatten_cons,
        List.zip_append ((hfo x).trans (hfr x).symm), List.map_append,
        List.sum_append, List.sum_cons, List.length_append, List.length_cons]
      refine ⟨by rw [ih.1], ?_⟩
      rw [ih.2, List.length_zip, hfo x, hfr x, min_self]
      ring

/-- Sums of rowwise quotients by a fixed denominator collapse to a single
quotient. -/
theorem map_div_sum {σ : Type} (g : σ → ℚ) (n : ℚ) :
    ∀ rows : List σ, (rows.map (fun x => g x / n)).sum = (rows.map g).sum / n := by
  intro rows
  induction rows with
  | nil => simp
  | cons x rows ih =>
      simp only [List.map_cons, List.sum_cons, ih]
      rw [div_add_div_same]

/-- The batch compression loss of a rowwise-computed batch is the average
of the per-example losses. -/
theorem compressionLossBatch_rows {σ : Type} (fo fr : σ → List ℚ) (n : ℕ)
    (hfo : ∀ x, (fo x).length = n) (hfr : ∀ x, (fr x).length = n) (rows : List σ) :
    compressionLossBatch (rows.map fo) (rows.map fr)
      = (rows.map (perExampleLoss fo fr)).sum / rows.length := by
  obtain ⟨hsum, hlen⟩ := flatten_zip_loss fo fr n hfo hfr rows
  unfold compressionLossBatch mean
  rw [List.length_map, hsum, hlen]
  have hper : rows.map (perExampleLoss fo fr)
      = rows.map (fun x =>
          (((fo x).zip (fr x)).map (fun p => (1/2) * (p.1 - p.2)^2)).sum / (n : ℚ)) := by
    apply List.map_congr_left
    intro x _
    unfold perExampleLoss mean
    rw [List.length_map, List.length_zip, hfo x, hfr x, min_self]
  rw [hper, map_div_sum]
  rw [div_div]
  rw [Nat.cast_mul]
  rw [mul_comm ((rows.length : ℚ)) ((n : ℚ))]

/-- Claim C10: the single-state evaluation paths build a zero-initialized
batch of `batch_size` rows with the state in row 0, and the compression
loss they return (the exploration-bias numerator, also folded into
`max_compression_loss`) is the mean over that whole padded batch: the
per-example loss of the state plus batch_size − 1 copies of the
per-example loss of the all-zero state, divided by batch_size; hence for
batch_size ≥ 2 it differs from the state's own per-example loss whenever
the network reconstructs the all-zero state differently. -/
theorem C10_theorem {σ : Type} (B n : ℕ) (fo fr : σ → List ℚ) (zeroState s : σ)
    (hB : 1 ≤ B)
    (hfo : ∀ x, (fo x).length = n) (hfr : ∀ x, (fr x).length = n) :
    compressionLossMethod B fo fr zeroState s
      = (perExampleLoss fo fr s + ((B - 1 : ℕ) : ℚ) * perExampleLoss fo fr zeroState)
        / (B : ℚ) ∧
    (2 ≤ B → perExampleLoss fo fr zeroState ≠ perExampleLoss fo fr s →
      compressionLossMethod B fo fr zeroState s ≠ perExampleLoss fo fr s) ∧
    (∀ (P : Type) (m : DQLState P),
      (stepOp m (Op.evalCompressionLoss
          (compressionLossMethod B fo fr zeroState s))).maxCompressionLoss
        = max m.maxCompressionLoss (compressionLossMethod B fo fr zeroState s)) := by
  have hmain : compressionLossMethod B fo fr zeroState s
      = (perExampleLoss fo fr s + ((B - 1 : ℕ) : ℚ) * perExampleLoss fo fr zeroState)
        / (B : ℚ) := by
    unfold compressionLossMethod paddedStates
    rw [compressionLossBatch_rows fo fr n hfo hfr]
    simp only [List.map_cons, List.map_replicate, List.sum_cons, List.sum_replicate,
      List.length_cons, List.length_replicate]
    rw [nsmul_eq_mul, Nat.sub_add_cancel hB]
  refine ⟨hmain, ?_, fun P m => rfl⟩
  intro hB2 hne
  rw [hmain]
  set a := perExampleLoss fo fr s
  set b := perExampleLoss fo fr zeroState
  have hBq : (B : ℚ) ≠ 0 := Nat.cast_ne_zero.mpr (by omega)
  have hcast : ((B - 1 : ℕ) : ℚ) = (B : ℚ) - 1 := by
    push_cast [Nat.cast_sub hB]
    ring
  intro heq
  rw [hcast, div_eq_iff hBq] at heq
  have hm : ((B : ℚ) - 1) ≠ 0 := by
    have h2B : (2 : ℚ) ≤ (B : ℚ) := by exact_mod_cast hB2
    intro h
    rw [sub_eq_zero] at h
    rw [h] at h2B
    norm_num at h2B
  apply hne
  have h2 : ((B : ℚ) - 1) * b = ((B : ℚ) - 1) * a := by linear_combination heq
  exact mul_left_cancel₀ hm h2

/-- Claim C10 witness: batch size 2, feature length 1, the network maps a
state x to feature [x] and reconstructs everything as [0]. -/
theorem C10_witness :
    1 ≤ 2 ∧ (∀ x : ℕ, ([((x : ℚ))]).length = 1) ∧
    (∀ _x : ℕ, ([(0 : ℚ)]).length = 1) ∧
    (compressionLossMethod 2 (fun x : ℕ => [((x : ℚ))]) (fun _ => [0]) 0 2
        = (perExampleLoss (fun x : ℕ => [((x : ℚ))]) (fun _ => [0]) 2
            + ((2 - 1 : ℕ) : ℚ)
              * perExampleLoss (fun x : ℕ => [((x : ℚ))]) (fun _ => [0]) 0) / (2 : ℚ) ∧
     (2 ≤ 2 → perExampleLoss (fun x : ℕ => [((x : ℚ))]) (fun _ => [0]) 0
          ≠ perExampleLoss (fun x : ℕ => [((x : ℚ))]) (fun _ => [0]) 2 →
        compressionLossMethod 2 (fun x : ℕ => [((x : ℚ))]) (fun _ => [0]) 0 2
          ≠ perExampleLoss (fun x : ℕ => [((x : ℚ))]) (fun _ => [0]) 2) ∧
     (∀ (P : Type) (m : DQLState P),
        (stepOp m (Op.evalCompressionLoss
            (compressionLossMethod 2 (fun x : ℕ => [((x : ℚ))]) (fun _ => [0]) 0 2))).maxCompressionLoss
          = max m.maxCompressionLoss
              (compressionLossMethod 2 (fun x : ℕ => [((x : ℚ))]) (fun _ => [0]) 0 2))) :=
  ⟨by decide, fun _ => rfl, fun _ => rfl,
    C10_theorem 2 1 (fun x : ℕ => [((x : ℚ))]) (fun _ => [0]) 0 2
      (by decide) (fun _ => rfl) (fun _ => rfl)⟩

end PlayingAtari
